import Mathlib

/-!
Shallow embedding of the asset hot-reload coordination subsystem of
src/src/ametheed/assets/reload.rs.

Modelling conventions:
- `u64` and `u8` fields become `Nat`; where the source can overflow a `u64`
  (the `frame_number + 1` computed by the tick) the embedding reduces modulo
  `2 ^ 64`.
- `std::time::Instant` becomes a `Nat` count of milliseconds on a monotonic
  clock; `Duration::as_secs` becomes truncating division by 1000, matching the
  whole-second truncation of the source.
- The ECS plumbing (`Time`, `World`, `Loader`) is reduced to the fields this
  subsystem reads or writes.
-/

/-- Maximum value of a Rust u64, used by the source (std::u64::MAX) as the
sentinel frame number meaning "not yet due". -/
def u64MAX : Nat := 2 ^ 64 - 1

/-- Embedding of the private enum `HotReloadStrategyInner` of reload.rs
(lines 122-134): `Every` holds the interval in seconds (u8), the last-fire
instant, and the due frame number; `Trigger` holds the pending flag and the
due frame number; `Never` holds nothing. -/
inductive HotReloadStrategyInner where
  | Every (interval : Nat) (last : Nat) (frame_number : Nat)
  | Trigger (triggered : Bool) (frame_number : Nat)
  | Never
deriving DecidableEq, Repr

/-- Embedding of the public struct `HotReloadStrategy` (reload.rs lines 55-58),
a wrapper around the private inner enum. -/
structure HotReloadStrategy where
  inner : HotReloadStrategyInner
deriving DecidableEq, Repr

/-- `HotReloadStrategy::every(n)` (reload.rs lines 62-72): periodic variant with
`last = Instant::now()` (the construction instant is a parameter here) and
`frame_number = u64::MAX`. -/
def HotReloadStrategy.every (n : Nat) (now : Nat) : HotReloadStrategy :=
  { inner := HotReloadStrategyInner.Every n now u64MAX }

/-- `HotReloadStrategy::when_triggered()` (reload.rs lines 75-84): triggered
variant with `triggered = false` and `frame_number = u64::MAX`. -/
def HotReloadStrategy.when_triggered : HotReloadStrategy :=
  { inner := HotReloadStrategyInner.Trigger false u64MAX }

/-- `HotReloadStrategy::never()` (reload.rs lines 87-91). -/
def HotReloadStrategy.never : HotReloadStrategy :=
  { inner := HotReloadStrategyInner.Never }

/-- `HotReloadStrategy::trigger` (reload.rs lines 95-102): sets the `triggered`
flag when the variant is `Trigger`, otherwise changes nothing. -/
def HotReloadStrategy.trigger (s : HotReloadStrategy) : HotReloadStrategy :=
  match s.inner with
  | HotReloadStrategyInner.Trigger _ fn =>
      { inner := HotReloadStrategyInner.Trigger true fn }
  | _ => s

/-- `HotReloadStrategy::needs_reload` (reload.rs lines 107-113): compares the
stored frame number against the current frame for the stateful variants and
returns false for `Never`. -/
def HotReloadStrategy.needs_reload (s : HotReloadStrategy) (current_frame : Nat) : Bool :=
  match s.inner with
  | HotReloadStrategyInner.Every _ _ fn => fn == current_frame
  | HotReloadStrategyInner.Trigger _ fn => fn == current_frame
  | HotReloadStrategyInner.Never => false

/-- `impl Default for HotReloadStrategy` (reload.rs lines 116-120):
`HotReloadStrategy::every(1)`; the construction instant is a parameter as in
`every`. -/
def HotReloadStrategy.default (now : Nat) : HotReloadStrategy :=
  HotReloadStrategy.every 1 now

/-- The slice of the ECS `Time` resource this subsystem reads: the current
frame number (`time.frame_number()`). -/
structure Time where
  frame_number : Nat
deriving DecidableEq, Repr

/-- Embedding of the unit struct `HotReloadSystem` (reload.rs line 156). -/
structure HotReloadSystem
deriving DecidableEq, Repr

/-- `HotReloadSystem::new()` generated by derive_new. -/
def HotReloadSystem.new : HotReloadSystem := HotReloadSystem.mk

/-- `HotReloadSystem::run` (reload.rs lines 161-188), the per-frame tick.
`Trigger`: when `triggered`, set `frame_number = time.frame_number() + 1`
(mod 2 ^ 64), and always clear `triggered`. `Every`: when
`last.elapsed().as_secs() > interval` (truncating whole-second comparison),
set `frame_number = time.frame_number() + 1` and reset `last` to now.
`Never`: unchanged. -/
def HotReloadSystem.run (time : Time) (now : Nat) (strategy : HotReloadStrategy) :
    HotReloadStrategy :=
  match strategy.inner with
  | HotReloadStrategyInner.Trigger triggered frame_number =>
      { inner := HotReloadStrategyInner.Trigger false
          (if triggered then (time.frame_number + 1) % 2 ^ 64 else frame_number) }
  | HotReloadStrategyInner.Every interval last frame_number =>
      if (now - last) / 1000 > interval then
        { inner := HotReloadStrategyInner.Every interval now
            ((time.frame_number + 1) % 2 ^ 64) }
      else
        { inner := HotReloadStrategyInner.Every interval last frame_number }
  | HotReloadStrategyInner.Never => strategy

/-- An interleaved sequence of the two operations that can touch a strategy:
a tick of `HotReloadSystem::run` or a call of `trigger`. -/
inductive HotReloadOp where
  | tick (time : Time) (now : Nat)
  | trig
deriving DecidableEq, Repr

/-- Apply one operation to a strategy. -/
def applyOp (s : HotReloadStrategy) (op : HotReloadOp) : HotReloadStrategy :=
  match op with
  | HotReloadOp.tick t now => HotReloadSystem.run t now s
  | HotReloadOp.trig => s.trigger

/-- Apply a whole sequence of operations, oldest first. -/
def applyOps (s : HotReloadStrategy) (ops : List HotReloadOp) : HotReloadStrategy :=
  ops.foldl applyOp s

/-- Spec-side view (spec section 3): the `due_frame` of a strategy, present for
the two stateful variants and absent for the disabled one. -/
def dueFrame (s : HotReloadStrategy) : Option Nat :=
  match s.inner with
  | HotReloadStrategyInner.Every _ _ fn => some fn
  | HotReloadStrategyInner.Trigger _ fn => some fn
  | HotReloadStrategyInner.Never => none

/-- The slice of the `Loader` resource this subsystem writes: the hot-reload
flag toggled by `set_hot_reload`. The loader itself lives outside the
hot-reload source file. -/
structure Loader where
  hot_reload : Bool
deriving DecidableEq, Repr

/-- Modelled from the spec: `Loader::set_hot_reload` (the file defining
`Loader` is not part of the snapshot); per the build step description it
enables hot reloading on the loader, so it stores the given flag. -/
def Loader.set_hot_reload (l : Loader) (b : Bool) : Loader :=
  { l with hot_reload := b }

/-- The slice of the ECS `World` this subsystem touches: the
`HotReloadStrategy` resource slot (absent until inserted) and the `Loader`
resource. -/
structure World where
  strategy : Option HotReloadStrategy
  loader : Loader
deriving DecidableEq, Repr

/-- Modelled from the spec: `World::insert` for the strategy resource (specs
`World` is an external collaborator); it installs the given strategy as the
process-wide resource, replacing any previous one. -/
def World.insert (w : World) (s : HotReloadStrategy) : World :=
  { w with strategy := some s }

/-- Embedding of the struct `HotReloadSystemDesc` (reload.rs lines 138-141). -/
structure HotReloadSystemDesc where
  strategy : HotReloadStrategy
deriving DecidableEq, Repr

/-- `SystemDesc::build` for `HotReloadSystemDesc` (reload.rs lines 143-152):
inserts the supplied strategy into the world, sets the loader hot-reload flag
to true, and returns the built system. -/
def HotReloadSystemDesc.build (d : HotReloadSystemDesc) (world : World) :
    World × HotReloadSystem :=
  let world := world.insert d.strategy
  let world := { world with loader := world.loader.set_hot_reload true }
  (world, HotReloadSystem.new)

/-- Modelled from the spec: the reload outcome of one asset, the shape of
`Reload::reload` of reload.rs line 20 (`Result<FormatValue<D>, Error>`); the
content type `D` and the error type `E` are parameters. -/
def ReloadOutcome (D E : Type) : Type := Except E D

/-- Modelled from the spec: one entry of the asset store taking part in a
reload pass (spec sections 3 and 4.3; the store itself is not part of the
snapshot, only the `Reload` trait of reload.rs lines 12-21 is): the current
content, the result of the cheap `needs_reload` check, and the outcome that
calling `reload` on the backing source produces. -/
structure AssetEntry (D E : Type) where
  content : D
  needs : Bool
  outcome : ReloadOutcome D E

/-- Modelled from the spec (section 4.3, steps a-c): process one entry of the
reload pass. When the entry does not need reloading it is untouched; when
`reload` succeeds the content is swapped for the fresh one; when it fails the
previous content is retained and the error is surfaced. -/
def reloadAsset {D E : Type} (a : AssetEntry D E) : AssetEntry D E × Option E :=
  if a.needs then
    match a.outcome with
    | Except.ok c => ({ a with content := c }, none)
    | Except.error e => (a, some e)
  else (a, none)

/-- Modelled from the spec (section 4.3): the reload pass over the loaded
entries, processing each in turn; a failure records its error and processing
continues with the remaining entries. -/
def reloadPass {D E : Type} (entries : List (AssetEntry D E)) :
    List (AssetEntry D E) × List E :=
  match entries with
  | [] => ([], [])
  | a :: rest =>
      let step := reloadAsset a
      let tail := reloadPass rest
      (step.1 :: tail.1,
        match step.2 with
        | some e => e :: tail.2
        | none => tail.2)

/-! Helper lemmas. -/

lemma trigger_trigger (s : HotReloadStrategy) : s.trigger.trigger = s.trigger := by
  cases s with
  | mk inner => cases inner <;> rfl

lemma trigger_iterate_fixed (k : Nat) (s : HotReloadStrategy) :
    HotReloadStrategy.trigger^[k] s.trigger = s.trigger := by
  induction k with
  | zero => rfl
  | succ n ih => rw [Function.iterate_succ_apply, trigger_trigger, ih]

lemma trigger_iterate_of_pos (k : Nat) (hk : 1 ≤ k) (s : HotReloadStrategy) :
    HotReloadStrategy.trigger^[k] s = s.trigger := by
  obtain ⟨n, rfl⟩ : ∃ n, k = n + 1 := ⟨k - 1, (Nat.succ_pred_eq_of_pos hk).symm⟩
  rw [Function.iterate_succ_apply, trigger_iterate_fixed]

lemma applyOp_never (op : HotReloadOp) :
    applyOp HotReloadStrategy.never op = HotReloadStrategy.never := by
  cases op <;> rfl

lemma applyOps_never (ops : List HotReloadOp) :
    applyOps HotReloadStrategy.never ops = HotReloadStrategy.never := by
  induction ops with
  | nil => rfl
  | cons op rest ih =>
      simp only [applyOps, List.foldl_cons, applyOp_never] at ih ⊢
      exact ih

lemma reloadPass_fst {D E : Type} (entries : List (AssetEntry D E)) :
    (reloadPass entries).1 = entries.map (fun x => (reloadAsset x).1) := by
  induction entries with
  | nil => rfl
  | cons a rest ih => simp [reloadPass, ih]

lemma reloadPass_err_mem {D E : Type} (entries : List (AssetEntry D E))
    (a : AssetEntry D E) (e : E) (ha : a ∈ entries) (hn : a.needs = true)
    (ho : a.outcome = Except.error e) : e ∈ (reloadPass entries).2 := by
  induction entries with
  | nil => cases ha
  | cons b rest ih =>
      rcases List.mem_cons.mp ha with hb | hrest
      · subst hb
        simp [reloadPass, reloadAsset, hn, ho]
      · have hmem := ih hrest
        simp only [reloadPass]
        cases hsnd : (reloadAsset b).2 with
        | none => simpa [hsnd] using hmem
        | some e2 =>
            simp only [hsnd, List.mem_cons]
            exact Or.inr hmem

/-! Claim theorems. -/

/-- Claim C4: a strategy created with `never` has `needs_reload f = false` for
every frame `f` after every sequence of tick and trigger operations; the
disabled strategy never fires, `trigger` leaves it unchanged and every tick
leaves it unchanged. -/
theorem C4_disabled_never_fires (ops : List HotReloadOp) (f : Nat) :
    applyOps HotReloadStrategy.never ops = HotReloadStrategy.never
    ∧ (applyOps HotReloadStrategy.never ops).needs_reload f = false
    ∧ HotReloadStrategy.never.trigger = HotReloadStrategy.never
    ∧ ∀ t now, HotReloadSystem.run t now HotReloadStrategy.never
        = HotReloadStrategy.never := by
  refine ⟨applyOps_never ops, ?_, rfl, fun t now => rfl⟩
  rw [applyOps_never ops]
  rfl

/-- Claim C5: a freshly constructed `every n` or `when_triggered` strategy has
its due frame equal to the maximum representable u64 value, and consequently
`needs_reload f` is false at every representable frame `f` below that
sentinel. -/
theorem C5_initial_due_frame_is_sentinel (n now : Nat) :
    (HotReloadStrategy.every n now).inner
      = HotReloadStrategyInner.Every n now u64MAX
    ∧ HotReloadStrategy.when_triggered.inner
      = HotReloadStrategyInner.Trigger false u64MAX
    ∧ u64MAX = 2 ^ 64 - 1
    ∧ ∀ f, f < u64MAX →
        (HotReloadStrategy.every n now).needs_reload f = false
        ∧ HotReloadStrategy.when_triggered.needs_reload f = false := by
  refine ⟨rfl, rfl, rfl, fun f hf => ?_⟩
  have hne : u64MAX ≠ f := Nat.ne_of_gt hf
  constructor <;>
    simp [HotReloadStrategy.every, HotReloadStrategy.when_triggered,
      HotReloadStrategy.needs_reload, hne]

/-- Claim C5 witness: the fresh strategies report not due at frame 3. -/
theorem C5_witness :
    (HotReloadStrategy.every 2 0).needs_reload 3 = false
    ∧ HotReloadStrategy.when_triggered.needs_reload 3 = false :=
  (C5_initial_due_frame_is_sentinel 2 0).2.2.2 3 (by decide)

/-- Claim C6: `needs_reload` is a pure query that holds exactly when the due
frame of the strategy equals the current frame, and is false for the disabled
variant. -/
theorem C6_is_due_pure_query (s : HotReloadStrategy) (f : Nat) :
    (s.needs_reload f = true ↔ dueFrame s = some f)
    ∧ (s.inner = HotReloadStrategyInner.Never → s.needs_reload f = false) := by
  cases s with
  | mk inner =>
      cases inner with
      | Every i l fn =>
          exact ⟨by simp [HotReloadStrategy.needs_reload, dueFrame],
            fun h => HotReloadStrategyInner.noConfusion h⟩
      | Trigger p fn =>
          exact ⟨by simp [HotReloadStrategy.needs_reload, dueFrame],
            fun h => HotReloadStrategyInner.noConfusion h⟩
      | Never =>
          exact ⟨by simp [HotReloadStrategy.needs_reload, dueFrame], fun h => rfl⟩

/-- Claim C6 witness: at the sentinel due frame the query answers true. -/
theorem C6_witness :
    HotReloadStrategy.when_triggered.needs_reload u64MAX = true :=
  (C6_is_due_pure_query HotReloadStrategy.when_triggered u64MAX).1.mpr rfl

/-- Claim C7: `trigger` sets the pending flag when the variant is `Trigger`
and is the identity on the other variants; it is idempotent, and iterating it
any positive number of times equals a single call. -/
theorem C7_trigger_noop_unless_triggered (s : HotReloadStrategy) :
    (∀ p fn, s.inner = HotReloadStrategyInner.Trigger p fn →
        s.trigger = ⟨HotReloadStrategyInner.Trigger true fn⟩)
    ∧ (∀ i l fn, s.inner = HotReloadStrategyInner.Every i l fn → s.trigger = s)
    ∧ (s.inner = HotReloadStrategyInner.Never → s.trigger = s)
    ∧ s.trigger.trigger = s.trigger
    ∧ ∀ k, 1 ≤ k → HotReloadStrategy.trigger^[k] s = s.trigger := by
  obtain ⟨inner⟩ := s
  refine ⟨?_, ?_, ?_, trigger_trigger ⟨inner⟩,
    fun k hk => trigger_iterate_of_pos k hk ⟨inner⟩⟩
  · intro p fn h
    cases h
    rfl
  · intro i l fn h
    cases h
    rfl
  · intro h
    cases h
    rfl

/-- Claim C7 witness: triggering the triggered variant sets the pending flag,
and triggering a periodic strategy changes nothing. -/
theorem C7_witness :
    HotReloadStrategy.when_triggered.trigger
      = ⟨HotReloadStrategyInner.Trigger true u64MAX⟩
    ∧ (HotReloadStrategy.every 1 0).trigger = HotReloadStrategy.every 1 0 :=
  ⟨(C7_trigger_noop_unless_triggered HotReloadStrategy.when_triggered).1
      false u64MAX rfl,
    (C7_trigger_noop_unless_triggered (HotReloadStrategy.every 1 0)).2.1
      1 0 u64MAX rfl⟩

/-- Claim C8: the default strategy is `every 1`: hot reloading is enabled with
a one-second periodic policy, not disabled. -/
theorem C8_default_is_every_one (now : Nat) :
    HotReloadStrategy.default now = HotReloadStrategy.every 1 now
    ∧ (HotReloadStrategy.default now).inner
      = HotReloadStrategyInner.Every 1 now u64MAX
    ∧ HotReloadStrategy.default now ≠ HotReloadStrategy.never := by
  refine ⟨rfl, rfl, fun h => ?_⟩
  simp [HotReloadStrategy.default, HotReloadStrategy.every,
    HotReloadStrategy.never] at h

/-- Claim C8 witness: the default strategy at instant 0 is `every 1 0`. -/
theorem C8_witness : HotReloadStrategy.default 0 = HotReloadStrategy.every 1 0 :=
  (C8_default_is_every_one 0).1

/-- Claim C9: on a fresh `every n` or `when_triggered` strategy, the query at
the sentinel frame u64::MAX itself answers true (a spurious reload at that
exact frame), while every frame below the sentinel answers false. -/
theorem C9_sentinel_frame_reports_due (n now : Nat) :
    (HotReloadStrategy.every n now).needs_reload u64MAX = true
    ∧ HotReloadStrategy.when_triggered.needs_reload u64MAX = true
    ∧ ∀ f, f < u64MAX →
        (HotReloadStrategy.every n now).needs_reload f = false
        ∧ HotReloadStrategy.when_triggered.needs_reload f = false := by
  refine ⟨?_, ?_, fun f hf => ?_⟩
  · simp [HotReloadStrategy.every, HotReloadStrategy.needs_reload]
  · simp [HotReloadStrategy.when_triggered, HotReloadStrategy.needs_reload]
  · have hne : u64MAX ≠ f := Nat.ne_of_gt hf
    constructor <;>
      simp [HotReloadStrategy.every, HotReloadStrategy.when_triggered,
        HotReloadStrategy.needs_reload, hne]

/-- Claim C9 witness: fresh strategies are due at the sentinel frame and not
due at frame 12. -/
theorem C9_witness :
    (HotReloadStrategy.every 7 0).needs_reload u64MAX = true
    ∧ (HotReloadStrategy.every 7 0).needs_reload 12 = false :=
  ⟨(C9_sentinel_frame_reports_due 7 0).1,
    ((C9_sentinel_frame_reports_due 7 0).2.2 12 (by decide)).1⟩

/-- Claim C10: building the hot-reload system from a `HotReloadSystemDesc`
installs the supplied strategy as the world resource and sets the loader
hot-reload flag to true. -/
theorem C10_build_installs_strategy_and_enables_loader
    (d : HotReloadSystemDesc) (w : World) :
    ((d.build w).1).strategy = some d.strategy
    ∧ ((d.build w).1).loader.hot_reload = true :=
  ⟨rfl, rfl⟩

/-- Claim C10 witness: building with a concrete strategy over a world whose
loader flag starts false installs the strategy and flips the flag. -/
theorem C10_witness :
    (((HotReloadSystemDesc.mk (HotReloadStrategy.every 2 0)).build
        ⟨none, ⟨false⟩⟩).1).strategy = some (HotReloadStrategy.every 2 0)
    ∧ (((HotReloadSystemDesc.mk (HotReloadStrategy.every 2 0)).build
        ⟨none, ⟨false⟩⟩).1).loader.hot_reload = true :=
  C10_build_installs_strategy_and_enables_loader
    (HotReloadSystemDesc.mk (HotReloadStrategy.every 2 0)) ⟨none, ⟨false⟩⟩

/-- Claim C2: with a `when_triggered` strategy, any positive number of
`trigger` calls between two ticks makes the tick at frame N set the due frame
to N + 1 (mod 2 ^ 64), so `needs_reload` answers true at exactly that one
frame and false at every other frame, however many triggers were coalesced. -/
theorem C2_trigger_coalesces_to_single_frame (k N now : Nat) (hk : 1 ≤ k) :
    ∀ g, (HotReloadSystem.run ⟨N⟩ now
        (HotReloadStrategy.trigger^[k] HotReloadStrategy.when_triggered)).needs_reload g
      = decide (g = (N + 1) % 2 ^ 64) := by
  intro g
  rw [trigger_iterate_of_pos k hk]
  show ((N + 1) % 2 ^ 64 == g) = decide (g = (N + 1) % 2 ^ 64)
  by_cases hg : g = (N + 1) % 2 ^ 64
  · simp [hg]
  · rw [beq_eq_false_iff_ne.mpr (fun hh => hg hh.symm), decide_eq_false hg]

/-- Claim C2 witness: the scenario of the claim with one trigger during frame
5 and the tick run at frame 6 — due exactly at frame 7, not at 6 or 8. -/
theorem C2_witness :
    (HotReloadSystem.run ⟨6⟩ 0
        (HotReloadStrategy.trigger HotReloadStrategy.when_triggered)).needs_reload 7 = true
    ∧ (HotReloadSystem.run ⟨6⟩ 0
        (HotReloadStrategy.trigger HotReloadStrategy.when_triggered)).needs_reload 6 = false
    ∧ (HotReloadSystem.run ⟨6⟩ 0
        (HotReloadStrategy.trigger HotReloadStrategy.when_triggered)).needs_reload 8 = false := by
  have h := C2_trigger_coalesces_to_single_frame 1 6 0 (by decide)
  rw [Function.iterate_one] at h
  refine ⟨?_, ?_, ?_⟩ <;> rw [h] <;> decide

/-- Claim C3: a failed reload retains the previous content unchanged and
surfaces the error; a successful reload swaps the content; and the reload
pass processes every entry independently, so one failure never aborts the
pass and the failing error is recorded among the surfaced errors. -/
theorem C3_reload_failure_isolated {D E : Type}
    (a : AssetEntry D E) (entries : List (AssetEntry D E)) :
    (∀ e, a.needs = true → a.outcome = Except.error e →
        (reloadAsset a).1.content = a.content ∧ (reloadAsset a).2 = some e)
    ∧ (∀ c, a.needs = true → a.outcome = Except.ok c →
        (reloadAsset a).1.content = c)
    ∧ (reloadPass entries).1 = entries.map (fun x => (reloadAsset x).1)
    ∧ (∀ e, a ∈ entries → a.needs = true → a.outcome = Except.error e →
        e ∈ (reloadPass entries).2) := by
  refine ⟨?_, ?_, reloadPass_fst entries, ?_⟩
  · intro e hn ho
    simp [reloadAsset, hn, ho]
  · intro c hn ho
    simp [reloadAsset, hn, ho]
  · intro e hmem hn ho
    exact reloadPass_err_mem entries a e hmem hn ho

/-- Claim C3 witness: three assets, the middle one failing with error 42 — its
content stays 5, the error is surfaced, and the pass maps every entry through
its own reload step. -/
theorem C3_witness :
    (reloadAsset (⟨5, true, Except.error 42⟩ : AssetEntry Nat Nat)).1.content = 5
    ∧ (reloadAsset (⟨5, true, Except.error 42⟩ : AssetEntry Nat Nat)).2 = some 42
    ∧ (reloadPass [(⟨1, true, Except.ok 10⟩ : AssetEntry Nat Nat),
        ⟨5, true, Except.error 42⟩, ⟨3, true, Except.ok 30⟩]).1
      = [(⟨1, true, Except.ok 10⟩ : AssetEntry Nat Nat),
        ⟨5, true, Except.error 42⟩, ⟨3, true, Except.ok 30⟩].map
          (fun x => (reloadAsset x).1)
    ∧ 42 ∈ (reloadPass [(⟨1, true, Except.ok 10⟩ : AssetEntry Nat Nat),
        ⟨5, true, Except.error 42⟩, ⟨3, true, Except.ok 30⟩]).2 := by
  have h := C3_reload_failure_isolated
    (⟨5, true, Except.error 42⟩ : AssetEntry Nat Nat)
    [(⟨1, true, Except.ok 10⟩ : AssetEntry Nat Nat),
      ⟨5, true, Except.error 42⟩, ⟨3, true, Except.ok 30⟩]
  exact ⟨(h.1 42 rfl rfl).1, (h.1 42 rfl rfl).2, h.2.2.1,
    h.2.2.2 42 (List.mem_cons_of_mem _ (List.mem_cons_self _ _)) rfl rfl⟩

/-- Claim C1 counterexample: in the claimed scenario — strategy `every 2`
created at instant 0, ticks at frames 10, 11, 12 with the clock at 0s, 1s and
2.1s — the claim asserts `is_due` is true at frame 13, but the code compares
the truncated whole-second elapsed time strictly (`as_secs() > interval`), so
the 2.1s tick computes floor(2.1) = 2, 2 > 2 is false, no tick fires, and the
query at frame 13 answers false. -/
theorem C1_counterexample_scenario :
    (HotReloadSystem.run ⟨12⟩ 2100 (HotReloadSystem.run ⟨11⟩ 1000
      (HotReloadSystem.run ⟨10⟩ 0
        (HotReloadStrategy.every 2 0)))).needs_reload 13 = false := by
  decide

/-- Claim C1 (amended): for the periodic variant, the tick fires exactly when
the truncated whole-second elapsed time strictly exceeds the interval, i.e.
when at least (interval + 1) * 1000 milliseconds have elapsed — not as soon as
the elapsed time merely reaches the interval. A fire sets the due frame to
current_frame + 1 (mod 2 ^ 64) and resets the last-fire instant, after which
exactly that one frame satisfies `needs_reload`; when the condition fails the
tick leaves the strategy unchanged. Consequently, in the periodic(2) scenario
with the clock at 0s, 1s, 2.1s across ticks at frames 10, 11, 12, no tick
fires and the strategy is left exactly as freshly constructed, so `is_due` is
false at frames 10 through 13. -/
theorem C1_periodic_fires_after_whole_seconds (interval last fn N now : Nat) :
    ((now - last) / 1000 > interval ↔ (interval + 1) * 1000 ≤ now - last)
    ∧ ((now - last) / 1000 > interval →
        HotReloadSystem.run ⟨N⟩ now ⟨HotReloadStrategyInner.Every interval last fn⟩
          = ⟨HotReloadStrategyInner.Every interval now ((N + 1) % 2 ^ 64)⟩
        ∧ ∀ g, (HotReloadSystem.run ⟨N⟩ now
            ⟨HotReloadStrategyInner.Every interval last fn⟩).needs_reload g
          = decide (g = (N + 1) % 2 ^ 64))
    ∧ (¬ (now - last) / 1000 > interval →
        HotReloadSystem.run ⟨N⟩ now ⟨HotReloadStrategyInner.Every interval last fn⟩
          = ⟨HotReloadStrategyInner.Every interval last fn⟩)
    ∧ HotReloadSystem.run ⟨12⟩ 2100 (HotReloadSystem.run ⟨11⟩ 1000
        (HotReloadSystem.run ⟨10⟩ 0 (HotReloadStrategy.every 2 0)))
      = HotReloadStrategy.every 2 0 := by
  refine ⟨?_, fun h => ⟨?_, ?_⟩, fun h => ?_, by decide⟩
  · rw [gt_iff_lt, Nat.lt_iff_add_one_le, Nat.le_div_iff_mul_le (by norm_num)]
  · simp [HotReloadSystem.run, h]
  · intro g
    simp only [HotReloadSystem.run, if_pos h, HotReloadStrategy.needs_reload]
    by_cases hg : g = (N + 1) % 2 ^ 64
    · simp [hg]
    · rw [beq_eq_false_iff_ne.mpr (fun hh => hg hh.symm), decide_eq_false hg]
  · simp [HotReloadSystem.run, h]

/-- Claim C1 witness: with interval 2, last fire at 0 ms and the clock at
3001 ms, the truncated elapsed seconds are 3 > 2, so the tick at frame 5
fires, moves the due frame to 6 and resets the last-fire instant; frame 6 is
then reported due. -/
theorem C1_witness :
    HotReloadSystem.run ⟨5⟩ 3001 ⟨HotReloadStrategyInner.Every 2 0 u64MAX⟩
      = ⟨HotReloadStrategyInner.Every 2 3001 ((5 + 1) % 2 ^ 64)⟩
    ∧ (HotReloadSystem.run ⟨5⟩ 3001
        ⟨HotReloadStrategyInner.Every 2 0 u64MAX⟩).needs_reload 6 = true := by
  have h := (C1_periodic_fires_after_whole_seconds 2 0 u64MAX 5 3001).2.1 (by decide)
  refine ⟨h.1, ?_⟩
  rw [h.2 6]
  decide
